import Mathlib

/-!
Verification development for the rating-extraction core of the
NEWSA-RATING-STUDIO2 application (src/app.py).

The Python code is shallowly embedded:
* spreadsheet grids (`pandas` data frames after `fillna('').astype(str)`)
  become `List (List String)`; missing cells read as `""`, which models the
  `fillna('')` pre-coercion;
* Python `str.split`, `str.strip`, `int(...)`, `float(...)` and `"%02d"`
  formatting are modelled by executable char-list functions below
  (`strSplit`, `strTrim`, `pyInt`, `pyFloat`, `pad2`);
* Python floats are modelled as exact rationals: the cells only ever hold
  short decimal literals, which parse exactly, and the code performs no
  float arithmetic on them (`inf`, `nan` and `_` digit separators, which
  CPython additionally accepts, are not modelled; no claim touches them);
* `try/except` blocks returning a sentinel become `Option`; the one
  `raise ValueError` becomes `Except.error`;
* recursion is structural (fuel-based where needed) so that every
  definition evaluates inside the kernel.
-/

/-- Whitespace for Python `str.strip` and `int`/`float` parsing
(space, tab, newline, carriage return, vertical tab, form feed). -/
def pySpace (c : Char) : Bool :=
  c == ' ' || c == '\t' || c == '\n' || c == '\r' || c == Char.ofNat 11 || c == Char.ofNat 12

/-- The ten decimal digit characters. -/
def digitChars : List Char := ['0', '1', '2', '3', '4', '5', '6', '7', '8', '9']

/-- Numeric value of a digit character. -/
def digitVal (c : Char) : Nat := c.toNat - 48

/-- Value of a most-significant-digit-first digit string. -/
def digitsToNat (l : List Char) : Nat := l.foldl (fun a c => 10 * a + digitVal c) 0

/-- The digit character for a value less than 10 (else lumped into the 9 case). -/
def digitChar (d : Nat) : Char :=
  if d = 0 then '0' else if d = 1 then '1' else if d = 2 then '2' else if d = 3 then '3'
  else if d = 4 then '4' else if d = 5 then '5' else if d = 6 then '6'
  else if d = 7 then '7' else if d = 8 then '8' else '9'

/-- Fuel-driven decimal digit expansion (most significant digit first; `[]` for 0). -/
def natDigitsAux : Nat → Nat → List Char
  | 0, _ => []
  | fuel + 1, n => if n = 0 then [] else natDigitsAux fuel (n / 10) ++ [digitChar (n % 10)]

/-- Decimal digits of a natural number, most significant first (`[]` for 0). -/
def natDigits (n : Nat) : List Char := natDigitsAux n n

/-- Decimal representation of a natural number, models Python `str(n)` for `n ≥ 0`. -/
def natRepr (n : Nat) : String := if n = 0 then "0" else ⟨natDigits n⟩

/-- Decimal representation of an integer, models Python `str(i)` / `"%d" % i`. -/
def intRepr (i : Int) : String :=
  if i < 0 then "-" ++ natRepr i.natAbs else natRepr i.toNat

/-- Python `f"{int(i):02d}"`: zero-pad a nonnegative single digit to two characters. -/
def pad2 (i : Int) : String :=
  if 0 ≤ i ∧ i < 10 then "0" ++ intRepr i else intRepr i

/-- First occurrence split: `some (pre, post)` iff `sep` occurs in the list, where
`pre` is the part before the first occurrence and `post` the part after it. -/
def listSplitFirst (sep : List Char) : List Char → Option (List Char × List Char)
  | [] => none
  | c :: rest =>
    if sep.isPrefixOf (c :: rest) then some ([], (c :: rest).drop sep.length)
    else
      match listSplitFirst sep rest with
      | some pp => some (c :: pp.1, pp.2)
      | none => none

/-- Fuel-driven splitting on every occurrence of `sep` (Python `str.split(sep)`). -/
def listSplitAux (sep : List Char) : Nat → List Char → List (List Char)
  | 0, l => [l]
  | fuel + 1, l =>
    match listSplitFirst sep l with
    | none => [l]
    | some pp => pp.1 :: listSplitAux sep fuel pp.2

/-- Split a char list on every occurrence of `sep` (enough fuel for any input). -/
def listSplit (sep l : List Char) : List (List Char) := listSplitAux sep (l.length + 1) l

/-- Python `s.split(sep)` for a non-empty separator. -/
def strSplit (sep s : String) : List String := (listSplit sep.data s.data).map String.mk

/-- Python `s.strip()` on a char list. -/
def listTrim (l : List Char) : List Char :=
  ((l.dropWhile pySpace).reverse.dropWhile pySpace).reverse

/-- Python `s.strip()`. -/
def strTrim (s : String) : String := ⟨listTrim s.data⟩

/-- Python substring test `pat in s` (for the non-empty literals used by the app). -/
def pySubstr (pat s : String) : Bool := (listSplitFirst pat.data s.data).isSome

/-- Strip one optional leading sign, returning the sign and the remaining chars. -/
def stripSign (cs : List Char) : Int × List Char :=
  match cs with
  | [] => (1, [])
  | c :: r => if c = '+' then (1, r) else if c = '-' then (-1, r) else (1, c :: r)

/-- Python `int(s)` on a decimal string: optional surrounding whitespace, optional
sign, then at least one digit; `none` models the `ValueError`. -/
def pyInt (s : String) : Option Int :=
  let cs := listTrim s.data
  let sr := stripSign cs
  if sr.2 ≠ [] ∧ sr.2.all Char.isDigit then some (sr.1 * (digitsToNat sr.2 : Int)) else none

/-- The rational `sign * (i + f / 10^flen) * 10^e`, built with integer arithmetic
and a single `mkRat` so that it evaluates inside the kernel. -/
def sciToRat (sign : Int) (i f flen : Nat) (e : Int) : ℚ :=
  let m : Int := sign * ((i * 10 ^ flen + f : Nat) : Int)
  if 0 ≤ e then mkRat (m * ((10 ^ e.toNat : Nat) : Int)) (10 ^ flen)
  else mkRat m (10 ^ flen * 10 ^ (-e).toNat)

/-- Python `float(s)` restricted to finite decimal/scientific literals, as an exact
rational: optional whitespace and sign, digits with at most one point (at least one
digit), optional exponent; `none` models the `ValueError`. -/
def pyFloat (s : String) : Option ℚ :=
  let sr := stripSign (listTrim s.data)
  let mant := sr.2.takeWhile (fun c => !(c == 'e' || c == 'E'))
  let expPart := sr.2.dropWhile (fun c => !(c == 'e' || c == 'E'))
  let expVal : Option Int :=
    match expPart with
    | [] => some 0
    | _ :: er =>
      let esr := stripSign er
      if esr.2 ≠ [] ∧ esr.2.all Char.isDigit then some (esr.1 * (digitsToNat esr.2 : Int))
      else none
  let ip := mant.takeWhile (fun c => !(c == '.'))
  let fpRest := mant.dropWhile (fun c => !(c == '.'))
  let mantVal : Option (Nat × Nat × Nat) :=
    match fpRest with
    | [] => if ip ≠ [] ∧ ip.all Char.isDigit then some (digitsToNat ip, 0, 0) else none
    | _ :: fp =>
      if (ip ≠ [] ∨ fp ≠ []) ∧ ip.all Char.isDigit ∧ fp.all Char.isDigit then
        some (digitsToNat ip, digitsToNat fp, fp.length)
      else none
  match mantVal, expVal with
  | some ifl, some e => some (sciToRat sr.1 ifl.1 ifl.2.1 ifl.2.2 e)
  | _, _ => none

/-- Python `int(x)` on a float/rational: truncation toward zero. -/
def ratTrunc (q : ℚ) : Int := Int.tdiv q.num q.den

/-- `time_to_seconds` (src/app.py:51-60): split on `:`, hours and minutes via
`int`, optional seconds via `int(float(.))`; any failure yields `none`
(the Python code catches every exception and returns `None`). -/
def time_to_seconds (time_str : String) : Option Int :=
  match strSplit ":" time_str with
  | p0 :: p1 :: rest =>
    match pyInt p0, pyInt p1 with
    | some hours, some minutes =>
      match rest with
      | [] => some (hours * 3600 + minutes * 60)
      | p2 :: _ =>
        match pyFloat p2 with
        | some q => some (hours * 3600 + minutes * 60 + ratTrunc q)
        | none => none
    | _, _ => none
  | _ => none

/-- `seconds_to_time_str` (src/app.py:62-67).  Python `//` and `%` on a positive
divisor are floor division with nonnegative remainder, which is exactly
`Int.ediv`/`Int.emod` (the `/` and `%` of `ℤ`). -/
def seconds_to_time_str (seconds : Int) : String :=
  let hours := seconds / 3600
  let minutes := (seconds % 3600) / 60
  let secs := seconds % 60
  pad2 hours ++ ":" ++ pad2 minutes ++ ":" ++ pad2 secs

/-- A spreadsheet grid after `fillna('').astype(str)`: rows of string cells. -/
abbrev Grid := List (List String)

/-- Cell access `df_str.iloc[row, col]`; absent cells read as `""`, modelling the
`fillna('')` pre-coercion of missing values. -/
def cellAt (sheet : Grid) (row col : Nat) : String := (sheet.getD row []).getD col ""

/-- `.split('(')[0]` of the rating remainder (the `[0]` always exists). -/
def truncParen (s : String) : String := (strSplit "(" s).headD ""

/-- Rating extraction from a matched cell (src/app.py:91-92):
`cell.split(name)[1].strip().split('(')[0].strip()` fed to `float`;
`none` covers the caught `IndexError`/`ValueError`. -/
def extractRating (cell name : String) : Option ℚ :=
  match strSplit name cell with
  | _ :: seg :: _ => pyFloat (strTrim (truncParen (strTrim seg)))
  | _ => none

/-- The extraction rule as the specification words it: the substring of the cell
text that follows the FIRST occurrence of the variant name, trimmed, truncated at
the first parenthesis, trimmed and parsed.  Kept separate from `extractRating`
(which embeds the code) so the two can be compared. -/
def extractRating_specRule (cell name : String) : Option ℚ :=
  match listSplitFirst name.data cell.data with
  | some pp => pyFloat (strTrim (truncParen (strTrim ⟨pp.2⟩)))
  | none => none

/-- One scan step of `find_program_data_improved` at a fixed cell: candidate test
(non-empty trimmed cell containing the name and at least one digit,
src/app.py:82-84) followed by rating extraction. -/
def tryCell (sheet : Grid) (name : String) (row col : Nat) : Option (ℚ × Nat × Nat) :=
  let cell := strTrim (cellAt sheet row col)
  if !(cell == "") && pySubstr name cell && cell.data.any Char.isDigit then
    (extractRating cell name).map (fun q => (q, row, col))
  else none

/-- `find_program_data_improved` (src/app.py:70-99): for each name variant in
order, for each of columns 1..4, for each row top-to-bottom, try the cell; the
first successful extraction wins; `none` models the `(None, None, None)` return. -/
def find_program_data_improved (sheet : Grid) (program_names : List String) :
    Option (ℚ × Nat × Nat) :=
  program_names.findSome? fun name =>
    ([1, 2, 3, 4] : List Nat).findSome? fun col =>
      (List.range sheet.length).findSome? fun row =>
        tryCell sheet name row col

/-- The flattened scan order of the locator: variants outermost, then columns
1..4, then rows top-to-bottom. -/
def scanTriples (sheet : Grid) (names : List String) : List (String × Nat × Nat) :=
  names.flatMap fun name =>
    ([1, 2, 3, 4] : List Nat).flatMap fun col =>
      (List.range sheet.length).map fun row => (name, col, row)

/-- The specification's candidate test: the trimmed cell is non-empty, contains
the variant as a substring, and contains at least one digit. -/
def isCandidate (sheet : Grid) (name : String) (col row : Nat) : Bool :=
  let cell := strTrim (cellAt sheet row col)
  !(cell == "") && pySubstr name cell && cell.data.any Char.isDigit

/-- Gregorian leap year. -/
def isLeap (y : Nat) : Bool := (y % 4 == 0 && y % 100 != 0) || y % 400 == 0

/-- Days in a month of the proleptic Gregorian calendar. -/
def daysInMonth (y m : Nat) : Nat :=
  if m = 2 then (if isLeap y then 29 else 28)
  else if m = 4 ∨ m = 6 ∨ m = 9 ∨ m = 11 then 30
  else 31

/-- Days in year `y` before month `m`. -/
def daysBeforeMonth (y m : Nat) : Nat :=
  (List.range (m - 1)).foldl (fun a i => a + daysInMonth y (i + 1)) 0

/-- Day count of `y-m-d` in the proleptic Gregorian calendar (0001-01-01 is day 1). -/
def rataDie (y m d : Nat) : Nat :=
  365 * (y - 1) + (y - 1) / 4 - (y - 1) / 100 + (y - 1) / 400 + daysBeforeMonth y m + d

/-- `datetime.date.weekday()`: Monday = 0 .. Sunday = 6 (0001-01-01 was a Monday). -/
def weekday (y m d : Nat) : Nat := (rataDie y m d + 6) % 7

/-- `datetime.strptime(date_str, '%y%m%d')` on the canonical 6-digit form, with
CPython's two-digit-year pivot (00-68 ↦ 2000-2068, 69-99 ↦ 1969-1999) and
calendar validation of month and day.  (CPython's `%m`/`%d` also accept
single-digit months/days, so some non-6-digit strings parse there; every claim
uses the 6-digit form, for which the two agree.) -/
def parse_yymmdd (s : String) : Option (Nat × Nat × Nat) :=
  match s.data with
  | [y1, y2, m1, m2, d1, d2] =>
    if ([y1, y2, m1, m2, d1, d2] : List Char).all Char.isDigit then
      let yy := 10 * digitVal y1 + digitVal y2
      let mm := 10 * digitVal m1 + digitVal m2
      let dd := 10 * digitVal d1 + digitVal d2
      let y := if yy ≤ 68 then 2000 + yy else 1900 + yy
      if 1 ≤ mm ∧ mm ≤ 12 ∧ 1 ≤ dd ∧ dd ≤ daysInMonth y mm then some (y, mm, dd) else none
    else none
  | _ => none

/-- One per-program result of the aggregator (the dict built at src/app.py:137-141). -/
structure RatingRecord where
  name : String
  paid : Option ℚ
  rating_2049 : Option ℚ
deriving DecidableEq

/-- The weekday/weekend-dependent roster of name-variant lists
(src/app.py:111-116), in insertion order. -/
def programs (is_weekend : Bool) : List (String × List String) :=
  [("news_a", ["뉴스A", "특집뉴스A"]),
   ("jtbc", ["JTBC뉴스룸", "특집JTBC뉴스룸"]),
   ("mbn", if is_weekend then ["MBN뉴스센터", "특집MBN뉴스센터"]
           else ["MBN뉴스7", "특집MBN뉴스7"]),
   ("tv_chosun", if is_weekend then ["TV조선뉴스7", "특집TV조선뉴스7"]
                 else ["TV조선뉴스9", "특집TV조선뉴스9"])]

/-- `get_program_ratings` (src/app.py:101-143): parse the date (a failure there
propagates out of the function, hence the outer `Option`), derive weekend
status, and for each program key run the locator over both grids.  The Python
dict preserves insertion order, modelled by the association list. -/
def get_program_ratings (sheet_paid sheet_2049 : Grid) (date_str : String) :
    Option (List (String × RatingRecord)) :=
  match parse_yymmdd date_str with
  | none => none
  | some ymd =>
    let is_weekend : Bool := decide (5 ≤ weekday ymd.1 ymd.2.1 ymd.2.2)
    some ((programs is_weekend).map fun kv =>
      (kv.1,
       { name := kv.2.headD "",
         paid := (find_program_data_improved sheet_paid kv.2).map (fun t => t.1),
         rating_2049 := (find_program_data_improved sheet_2049 kv.2).map (fun t => t.1) }))

/-- Result record of the Structured Region Finder, with the field names of the
specification's contract (`program_row` is the row of the News-A program line,
the code's `news_a_row`). -/
structure StructuredLoc where
  program_row : Option Nat
  program_col : Option Nat
  time_col : Option Nat
  rating_col : Option Nat
  demographic_col : Option Nat
deriving DecidableEq

/-- Header-row scan of `find_news_a_data` (src/app.py:151-155): the first row
whose column-0 cell strips to the literal header. -/
def find_header_row (df : Grid) : Option Nat :=
  (List.range df.length).find? fun row => strTrim (cellAt df row 0) == "프로그램"

/-- Column count of the data frame (`df.shape[1]`; grids are rectangular in
practice, the widest row is used). -/
def gridCols (df : Grid) : Nat := df.foldr (fun r a => max r.length a) 0

/-- Demographic-column scan (src/app.py:181-185): row 0, a window of at most 10
columns starting at the matched program column, substring test, first hit wins. -/
def find_2049_col (df : Grid) (program_col : Nat) : Option Nat :=
  (List.range' program_col (min (program_col + 10) (gridCols df) - program_col)).find?
    fun col => pySubstr "수도권 2049" (cellAt df 0 col)

/-- Program-row scan of `find_news_a_data` (src/app.py:160-179): collect the
header columns of the header row, then for each of them scan the rows below for
a cell equal to the News-A names; first match wins, giving `(row, column)`. -/
def newsA_search (df : Grid) (program_row : Nat) : Option (Nat × Nat) :=
  ((List.range (gridCols df)).filter
      (fun col => strTrim (cellAt df program_row col) == "프로그램")).findSome?
    fun pc =>
      (List.range' (program_row + 1) (df.length - (program_row + 1))).findSome?
        fun row =>
          if strTrim (cellAt df row pc) == "뉴스A" || strTrim (cellAt df row pc) == "특집뉴스A"
          then some (row, pc) else none

/-- `find_news_a_data` (src/app.py:145-188).  The scanning logic is from the
source; the file is cut off after line 188, so the final assembly is
Modelled from the spec: on the first matched program row the function returns
the record with the fixed offsets and the (possibly unset) demographic column,
and when the header row is found but no program row matches it still returns a
record (all fields unset) rather than failing. -/
def find_news_a_data (df : Grid) : Except String StructuredLoc :=
  match find_header_row df with
  | none => Except.error "프로그램 행을 찾을 수 없습니다."
  | some program_row =>
    match newsA_search df program_row with
    | none => Except.ok ⟨none, none, none, none, none⟩
    | some rowpc =>
      Except.ok ⟨some rowpc.1, some rowpc.2, some (rowpc.2 + 1), some (rowpc.2 + 2),
        find_2049_col df rowpc.2⟩

/-- Grid of claim C1: the only candidate cell sits at row 3, column 2 and reads
`뉴스A 12.3% (최종)` (with a percent sign). -/
def gridC1 : Grid := [[], [], [], ["", "", "뉴스A 12.3% (최종)"]]

/-- Grid of claim C1 with the percent sign removed from the cell. -/
def gridC1Fixed : Grid := [[], [], [], ["", "", "뉴스A 12.3 (최종)"]]

/-- Grid of claim C2's counterexample: the variant name occurs twice in the cell. -/
def gridC2 : Grid := [["", "뉴스A12.3뉴스A"]]

/-- Grid of claim C5: a single weekday-named MBN cell. -/
def gridC5 : Grid := [["", "MBN뉴스7 8.1"]]

/-- Grid of claim C9's example: `프로그램` at (0,0) and `뉴스A` at (5,0). -/
def gridC9 : Grid := [["프로그램"], [], [], [], [], ["뉴스A"]]

/-- Grid of claim C10: a special-edition cell only. -/
def gridC10 : Grid := [["", "특집뉴스A 12.3"]]

/-! ### Helper lemmas: digit characters and decimal representations -/

/-- Every output of `digitChar` is one of the ten digit characters. -/
theorem digitChar_mem (d : Nat) : digitChar d ∈ digitChars := by
  unfold digitChar
  repeat' split
  all_goals decide

/-- The properties of digit characters needed below. -/
theorem digit_facts {c : Char} (hc : c ∈ digitChars) :
    c.isDigit = true ∧ pySpace c = false ∧ c ≠ ':' ∧ c ≠ '+' ∧ c ≠ '-' ∧
      c ≠ '.' ∧ c ≠ 'e' ∧ c ≠ 'E' ∧ c ≠ '(' := by
  simp only [digitChars, List.mem_cons, List.not_mem_nil, or_false] at hc
  rcases hc with rfl | rfl | rfl | rfl | rfl | rfl | rfl | rfl | rfl | rfl <;> decide

/-- `digitChar` is a right inverse of `digitVal` on values below 10. -/
theorem digitVal_digitChar {d : Nat} (h : d < 10) : digitVal (digitChar d) = d := by
  interval_cases d <;> decide

theorem natDigitsAux_zero (f : Nat) : natDigitsAux f 0 = [] := by
  cases f <;> rfl

/-- Any sufficient fuel computes the canonical digit expansion. -/
theorem natDigitsAux_eq_natDigits : ∀ n f : Nat, n ≤ f → natDigitsAux f n = natDigits n := by
  intro n
  induction n using Nat.strong_induction_on with
  | _ n ih =>
    intro f hf
    match n, f with
    | 0, f => cases f <;> rfl
    | n + 1, f + 1 =>
      show natDigitsAux (f + 1) (n + 1) = natDigitsAux (n + 1) (n + 1)
      have hd : (n + 1) / 10 < n + 1 := Nat.div_lt_self (Nat.succ_pos n) (by norm_num)
      simp only [natDigitsAux, if_neg (Nat.succ_ne_zero n)]
      rw [ih _ hd _ (by omega), ih _ hd _ (by omega)]

/-- Unfolding rule of the decimal expansion. -/
theorem natDigits_succ {n : Nat} (h : n ≠ 0) :
    natDigits n = natDigits (n / 10) ++ [digitChar (n % 10)] := by
  match n, h with
  | n + 1, _ =>
    show natDigitsAux (n + 1) (n + 1) = _
    have hd : (n + 1) / 10 < n + 1 := Nat.div_lt_self (Nat.succ_pos n) (by norm_num)
    simp only [natDigitsAux, if_neg (Nat.succ_ne_zero n)]
    rw [natDigitsAux_eq_natDigits _ _ (by omega)]

/-- The decimal expansion consists of digit characters only. -/
theorem natDigits_mem (n : Nat) : ∀ c ∈ natDigits n, c ∈ digitChars := by
  induction n using Nat.strong_induction_on with
  | _ n ih =>
    by_cases h : n = 0
    · subst h; intro c hc; simp [natDigits, natDigitsAux_zero] at hc
    · rw [natDigits_succ h]
      intro c hc
      rcases List.mem_append.mp hc with h1 | h1
      · exact ih _ (Nat.div_lt_self (Nat.pos_of_ne_zero h) (by norm_num)) c h1
      · rcases List.mem_singleton.mp h1 with rfl
        exact digitChar_mem _

theorem digitsToNat_append_singleton (l : List Char) (c : Char) :
    digitsToNat (l ++ [c]) = 10 * digitsToNat l + digitVal c := by
  simp [digitsToNat, List.foldl_append]

/-- The decimal expansion evaluates back to its number. -/
theorem digitsToNat_natDigits (n : Nat) : digitsToNat (natDigits n) = n := by
  induction n using Nat.strong_induction_on with
  | _ n ih =>
    by_cases h : n = 0
    · subst h; rfl
    · rw [natDigits_succ h, digitsToNat_append_singleton,
        ih _ (Nat.div_lt_self (Nat.pos_of_ne_zero h) (by norm_num)),
        digitVal_digitChar (Nat.mod_lt _ (by norm_num))]
      omega

theorem natDigits_ne_nil {n : Nat} (h : n ≠ 0) : natDigits n ≠ [] := by
  rw [natDigits_succ h]; simp

/-- `natRepr` produces digit characters only. -/
theorem natRepr_data_mem (n : Nat) : ∀ c ∈ (natRepr n).data, c ∈ digitChars := by
  unfold natRepr
  split
  · intro c hc; simp at hc; subst hc; decide
  · exact natDigits_mem n

/-- `natRepr` evaluates back to its number. -/
theorem digitsToNat_natRepr (n : Nat) : digitsToNat (natRepr n).data = n := by
  unfold natRepr
  split
  · subst ‹n = 0›; rfl
  · exact digitsToNat_natDigits n

theorem natRepr_data_ne_nil (n : Nat) : (natRepr n).data ≠ [] := by
  unfold natRepr
  split
  · simp [String.data]
  · exact natDigits_ne_nil ‹n ≠ 0›

/-! ### Helper lemmas: trimming, splitting and parsing -/

theorem dropWhile_eq_self_of {p : Char → Bool} :
    ∀ {l : List Char}, (∀ c ∈ l, p c = false) → l.dropWhile p = l := by
  intro l h
  cases l with
  | nil => rfl
  | cons x xs => simp [List.dropWhile_cons, h x (by simp)]

theorem dropWhile_eq_nil_of {p : Char → Bool} :
    ∀ {l : List Char}, (∀ c ∈ l, p c = true) → l.dropWhile p = [] := by
  intro l
  induction l with
  | nil => intro _; rfl
  | cons x xs ih =>
    intro h
    rw [List.dropWhile_cons, if_pos (h x (by simp))]
    exact ih fun c hc => h c (by simp [hc])

theorem takeWhile_eq_self_of {p : Char → Bool} :
    ∀ {l : List Char}, (∀ c ∈ l, p c = true) → l.takeWhile p = l := by
  intro l
  induction l with
  | nil => intro _; rfl
  | cons x xs ih =>
    intro h
    rw [List.takeWhile_cons, if_pos (h x (by simp))]
    rw [ih fun c hc => h c (by simp [hc])]

/-- Stripping does nothing to a string with no surrounding whitespace. -/
theorem listTrim_of_not_space {l : List Char} (h : ∀ c ∈ l, pySpace c = false) :
    listTrim l = l := by
  unfold listTrim
  rw [dropWhile_eq_self_of h, dropWhile_eq_self_of (fun c hc => h c (List.mem_reverse.mp hc)),
    List.reverse_reverse]

theorem stripSign_of_digit {l : List Char} (h : ∀ c ∈ l, c ∈ digitChars) :
    stripSign l = (1, l) := by
  cases l with
  | nil => rfl
  | cons x xs =>
    have hx := digit_facts (h x (by simp))
    simp [stripSign, hx.2.2.2.1, hx.2.2.2.2.1]

/-- `int` on a non-empty all-digit string. -/
theorem pyInt_digits (s : String) (h1 : s.data ≠ []) (h2 : ∀ c ∈ s.data, c ∈ digitChars) :
    pyInt s = some ((digitsToNat s.data : Int)) := by
  simp only [pyInt]
  rw [listTrim_of_not_space (fun c hc => (digit_facts (h2 c hc)).2.1), stripSign_of_digit h2]
  simp only []
  rw [if_pos ⟨h1, List.all_eq_true.mpr (fun c hc => (digit_facts (h2 c hc)).1)⟩]
  simp

/-- `float` on a non-empty all-digit string. -/
theorem pyFloat_digits (s : String) (h1 : s.data ≠ []) (h2 : ∀ c ∈ s.data, c ∈ digitChars) :
    pyFloat s = some ((digitsToNat s.data : ℚ)) := by
  simp only [pyFloat]
  rw [listTrim_of_not_space (fun c hc => (digit_facts (h2 c hc)).2.1), stripSign_of_digit h2]
  simp only []
  have hE : ∀ c ∈ s.data, (!(c == 'e' || c == 'E')) = true := by
    intro c hc
    have h := digit_facts (h2 c hc)
    simp [h.2.2.2.2.2.2.1, h.2.2.2.2.2.2.2.1]
  have hP : ∀ c ∈ s.data, (!(c == '.')) = true := by
    intro c hc
    have h := digit_facts (h2 c hc)
    simp [h.2.2.2.2.2.1]
  rw [takeWhile_eq_self_of hE, dropWhile_eq_nil_of hE, takeWhile_eq_self_of hP,
    dropWhile_eq_nil_of hP]
  rw [if_pos ⟨h1, List.all_eq_true.mpr (fun c hc => (digit_facts (h2 c hc)).1)⟩]
  simp only [sciToRat, pow_zero, Nat.mul_one, Nat.add_zero, Int.toNat_zero, le_refl, if_pos]
  norm_num [Rat.mkRat_one]

/-- Truncation of a natural number viewed as a rational. -/
theorem ratTrunc_natCast (n : Nat) : ratTrunc ((n : ℚ)) = (n : Int) := by
  unfold ratTrunc
  rw [Rat.num_natCast, Rat.den_natCast]
  simp [Int.tdiv_one]

/-- First-occurrence split for a single-character separator absent from the prefix. -/
theorem listSplitFirst_single (c : Char) :
    ∀ (a r : List Char), c ∉ a → listSplitFirst [c] (a ++ c :: r) = some (a, r) := by
  intro a
  induction a with
  | nil =>
    intro r _
    simp [listSplitFirst, List.isPrefixOf]
  | cons x xs ih =>
    intro r h
    have hx : ¬(c == x) = true := by
      simp only [beq_iff_eq]
      intro he; exact h (by simp [he])
    simp only [List.cons_append, listSplitFirst, List.isPrefixOf, hx, Bool.false_and,
      Bool.false_eq_true, if_false, List.append_eq]
    rw [ih r (fun hc => h (by simp [hc]))]

/-- No occurrence of an absent single-character separator. -/
theorem listSplitFirst_not_mem (c : Char) :
    ∀ l : List Char, c ∉ l → listSplitFirst [c] l = none := by
  intro l
  induction l with
  | nil => intro _; rfl
  | cons x xs ih =>
    intro h
    have hx : ¬(c == x) = true := by
      simp only [beq_iff_eq]
      intro he; exact h (by simp [he])
    simp only [listSplitFirst, List.isPrefixOf, hx, Bool.false_and, Bool.false_eq_true, if_false]
    rw [ih (fun hc => h (by simp [hc]))]

/-- A successful first-occurrence split strictly shrinks the remainder. -/
theorem listSplitFirst_length_lt {sep : List Char} (hs : sep ≠ []) :
    ∀ (l : List Char) (pp : List Char × List Char),
      listSplitFirst sep l = some pp → pp.2.length < l.length := by
  intro l
  induction l with
  | nil => intro pp h; simp [listSplitFirst] at h
  | cons x xs ih =>
    intro pp h
    rw [listSplitFirst] at h
    split at h
    · rcases Option.some.inj h with rfl
      have hsep : 1 ≤ sep.length := by
        cases sep with
        | nil => exact absurd rfl hs
        | cons _ _ => simp
      simp only [List.length_drop, List.length_cons]
      omega
    · revert h
      cases hrec : listSplitFirst sep xs with
      | none => intro h; exact absurd h (by simp)
      | some pp' =>
        intro h
        rcases Option.some.inj h with rfl
        have := ih pp' hrec
        simp only [List.length_cons]
        omega

/-- Fuel irrelevance for the iterated split. -/
theorem listSplitAux_fuel {sep : List Char} (hs : sep ≠ []) :
    ∀ (f1 f2 : Nat) (l : List Char), l.length < f1 → l.length < f2 →
      listSplitAux sep f1 l = listSplitAux sep f2 l := by
  intro f1
  induction f1 with
  | zero => intro f2 l h1; omega
  | succ f1 ih =>
    intro f2 l h1 h2
    cases f2 with
    | zero => omega
    | succ f2 =>
      simp only [listSplitAux]
      cases hf : listSplitFirst sep l with
      | none => rfl
      | some pp =>
        have hlt := listSplitFirst_length_lt hs l pp hf
        simp only []
        rw [ih f2 pp.2 (by omega) (by omega)]

/-- One-step unfolding of `listSplit` for a non-empty separator. -/
theorem listSplit_eq {sep : List Char} (hs : sep ≠ []) (l : List Char) :
    listSplit sep l =
      match listSplitFirst sep l with
      | none => [l]
      | some pp => pp.1 :: listSplit sep pp.2 := by
  unfold listSplit
  conv_lhs => rw [listSplitAux]
  cases hf : listSplitFirst sep l with
  | none => rfl
  | some pp =>
    have hlt := listSplitFirst_length_lt hs l pp hf
    simp only []
    rw [listSplitAux_fuel hs l.length (pp.2.length + 1) pp.2 (by omega) (by omega)]

/-- Splitting a list that does not contain the single-character separator. -/
theorem listSplit_not_mem {c : Char} {l : List Char} (h : c ∉ l) :
    listSplit [c] l = [l] := by
  rw [listSplit_eq (by simp), listSplitFirst_not_mem c l h]

/-- Splitting `a ++ c :: b ++ c :: d` on `c` yields the three components. -/
theorem listSplit_three {c : Char} {a b d : List Char}
    (ha : c ∉ a) (hb : c ∉ b) (hd : c ∉ d) :
    listSplit [c] (a ++ c :: (b ++ c :: d)) = [a, b, d] := by
  rw [listSplit_eq (by simp), listSplitFirst_single c a _ ha]
  simp only []
  rw [listSplit_eq (by simp), listSplitFirst_single c b _ hb]
  simp only []
  rw [listSplit_not_mem hd]

/-- The iterated split never returns the empty list of parts. -/
theorem listSplitAux_ne_nil (sep : List Char) :
    ∀ (f : Nat) (l : List Char), listSplitAux sep f l ≠ [] := by
  intro f l
  cases f with
  | zero => simp [listSplitAux]
  | succ f =>
    rw [listSplitAux]
    cases listSplitFirst sep l <;> simp

theorem str_data_append (a b : String) : (a ++ b).data = a.data ++ b.data := rfl

theorem digitsToNat_cons_zero (l : List Char) : digitsToNat ('0' :: l) = digitsToNat l := rfl

/-- `pad2` on a natural number: a leading zero below 10, plain representation above. -/
theorem pad2_natCast (n : Nat) :
    pad2 (n : Int) = if n < 10 then "0" ++ natRepr n else natRepr n := by
  unfold pad2 intRepr
  rw [if_neg (by omega : ¬((n : Int) < 0))]
  by_cases h : n < 10
  · rw [if_pos ⟨by omega, by omega⟩, if_pos h, Int.toNat_natCast]
  · rw [if_neg (by omega), if_neg h, Int.toNat_natCast]

theorem pad2_data_mem (n : Nat) : ∀ c ∈ (pad2 (n : Int)).data, c ∈ digitChars := by
  rw [pad2_natCast]
  split
  · intro c hc
    rw [str_data_append] at hc
    rcases List.mem_append.mp hc with h1 | h1
    · rcases List.mem_singleton.mp h1 with rfl; decide
    · exact natRepr_data_mem n c h1
  · exact natRepr_data_mem n

theorem pad2_data_ne_nil (n : Nat) : (pad2 (n : Int)).data ≠ [] := by
  rw [pad2_natCast]
  split
  · rw [str_data_append]; simp
  · exact natRepr_data_ne_nil n

theorem pad2_digitsToNat (n : Nat) : digitsToNat (pad2 (n : Int)).data = n := by
  rw [pad2_natCast]
  split
  · show digitsToNat ('0' :: (natRepr n).data) = n
    rw [digitsToNat_cons_zero, digitsToNat_natRepr]
  · exact digitsToNat_natRepr n

theorem pyInt_pad2 (n : Nat) : pyInt (pad2 (n : Int)) = some (n : Int) := by
  rw [pyInt_digits _ (pad2_data_ne_nil n) (pad2_data_mem n), pad2_digitsToNat]

theorem pyFloat_pad2 (n : Nat) : pyFloat (pad2 (n : Int)) = some ((n : ℚ)) := by
  rw [pyFloat_digits _ (pad2_data_ne_nil n) (pad2_data_mem n), pad2_digitsToNat]

theorem colon_not_mem_pad2 (n : Nat) : ':' ∉ (pad2 (n : Int)).data := by
  intro hmem
  exact absurd (pad2_data_mem n ':' hmem) (by decide)

/-- Splitting a canonically formatted time string yields its three components. -/
theorem strSplit_time (h m s : Nat) :
    strSplit ":" (pad2 (h : Int) ++ ":" ++ pad2 (m : Int) ++ ":" ++ pad2 (s : Int))
      = [pad2 (h : Int), pad2 (m : Int), pad2 (s : Int)] := by
  have hdata : (pad2 (h : Int) ++ ":" ++ pad2 (m : Int) ++ ":" ++ pad2 (s : Int)).data
      = (pad2 (h : Int)).data ++ ':' ::
          ((pad2 (m : Int)).data ++ ':' :: (pad2 (s : Int)).data) := by
    simp [str_data_append, List.append_assoc, show (":" : String).data = [':'] from rfl]
  unfold strSplit
  rw [hdata, show (":" : String).data = [':'] from rfl,
    listSplit_three (colon_not_mem_pad2 h) (colon_not_mem_pad2 m) (colon_not_mem_pad2 s)]
  rfl

/-! ### Claim theorems -/

/-- C6: for every time string of the form `HH:MM:SS` with two-digit zero-padded
components, `MM`, `SS` below 60 and `HH` unbounded, `time_to_seconds` returns
the total seconds and `seconds_to_time_str` maps that value back to the same
string; in particular the round trip
`seconds_to_time_str (time_to_seconds s) = s` holds, with
`time_to_seconds "09:05:30" = some 32730` and
`seconds_to_time_str 32730 = "09:05:30"` as the instance `h=9, m=5, s=30`. -/
theorem C6_time_roundtrip (h m s : Nat) (hm : m < 60) (hs : s < 60) :
    time_to_seconds (pad2 (h : Int) ++ ":" ++ pad2 (m : Int) ++ ":" ++ pad2 (s : Int))
        = some ((h : Int) * 3600 + (m : Int) * 60 + (s : Int))
    ∧ seconds_to_time_str ((h : Int) * 3600 + (m : Int) * 60 + (s : Int))
        = pad2 (h : Int) ++ ":" ++ pad2 (m : Int) ++ ":" ++ pad2 (s : Int) := by
  constructor
  · unfold time_to_seconds
    rw [strSplit_time]
    simp only [pyInt_pad2, pyFloat_pad2, ratTrunc_natCast]
  · have h1 : ((h : Int) * 3600 + (m : Int) * 60 + (s : Int)) / 3600 = (h : Int) := by omega
    have h2 : (((h : Int) * 3600 + (m : Int) * 60 + (s : Int)) % 3600) / 60 = (m : Int) := by
      omega
    have h3 : ((h : Int) * 3600 + (m : Int) * 60 + (s : Int)) % 60 = (s : Int) := by omega
    simp only [seconds_to_time_str]
    rw [h1, h2, h3]

/-- Witness for C6 at `h = 9`, `m = 5`, `s = 30`, i.e. the string `09:05:30`. -/
theorem C6_time_roundtrip_witness :
    (5 : Nat) < 60 ∧ (30 : Nat) < 60 ∧
      (time_to_seconds "09:05:30" = some 32730 ∧ seconds_to_time_str 32730 = "09:05:30") :=
  ⟨by decide, by decide, C6_time_roundtrip 9 5 30 (by decide) (by decide)⟩

theorem isPrefixOf_cons_ne {a b : Char} {as bs : List Char} (h : (a == b) = false) :
    List.isPrefixOf (a :: as) (b :: bs) = false := by
  simp only [List.isPrefixOf, h, Bool.false_and]

theorem isPrefixOf_append_self : ∀ (l r : List Char), List.isPrefixOf l (l ++ r) = true := by
  intro l r
  induction l with
  | nil => simp [List.isPrefixOf]
  | cons x xs ih => simp only [List.cons_append, List.isPrefixOf, beq_self_eq_true,
      Bool.true_and, List.append_eq, ih]

/-- An occurrence of the separator at the very front is found at once. -/
theorem listSplitFirst_prefix {sep : List Char} (hs : sep ≠ []) (r : List Char) :
    listSplitFirst sep (sep ++ r) = some ([], r) := by
  cases sep with
  | nil => exact absurd rfl hs
  | cons s ss =>
    rw [List.cons_append, listSplitFirst]
    have hp : (s :: ss).isPrefixOf (s :: (ss ++ r)) = true := by
      rw [← List.cons_append]
      exact isPrefixOf_append_self (s :: ss) r
    rw [if_pos hp, show List.drop (s :: ss).length (s :: (ss ++ r)) = r from by
      rw [← List.cons_append]; exact List.drop_left _ _]

/-- Stepping over a position where the separator does not start. -/
theorem listSplitFirst_cons_step {sep : List Char} {x : Char} {l : List Char}
    (hnp : sep.isPrefixOf (x :: l) = false) :
    listSplitFirst sep (x :: l) =
      match listSplitFirst sep l with
      | some pp => some (x :: pp.1, pp.2)
      | none => none := by
  rw [listSplitFirst, hnp]
  simp

/-- C1 counterexample: on the grid whose only candidate cell (row 3, column 2)
reads `뉴스A 12.3% (최종)`, the locator does NOT return rating 12.3: the
percent sign survives the `split('(')[0]` truncation, `float("12.3%")` fails,
the candidate is rejected, and the search returns the null sentinel. -/
theorem C1_counterexample :
    find_program_data_improved gridC1 ["뉴스A", "특집뉴스A"] = none
    ∧ find_program_data_improved gridC1 ["뉴스A", "특집뉴스A"] ≠ some (mkRat 123 10, 3, 2) :=
  ⟨rfl, by decide⟩

/-- C1 amended: with the percent sign absent from the cell — row 3, column 2
reading `뉴스A 12.3 (최종)` — the locator returns rating 12.3, row 3, column 2
exactly as the claim states. -/
theorem C1_amended :
    find_program_data_improved gridC1Fixed ["뉴스A", "특집뉴스A"] = some (mkRat 123 10, 3, 2) :=
  rfl

/-- C2 counterexample: in the cell `뉴스A12.3뉴스A` (variant `뉴스A` occurring
twice) the code parses the segment BETWEEN the two occurrences (`12.3`, which
succeeds and is returned by the locator), while the specification's rule — the
substring following the first occurrence, `12.3뉴스A` — fails to parse. -/
theorem C2_counterexample :
    find_program_data_improved gridC2 ["뉴스A"] = some (mkRat 123 10, 0, 1)
    ∧ extractRating "뉴스A12.3뉴스A" "뉴스A" = some (mkRat 123 10)
    ∧ extractRating_specRule "뉴스A12.3뉴스A" "뉴스A" = none :=
  ⟨rfl, rfl, rfl⟩

/-- C2 amended: the parsed text is the segment of the cell between the first and
second occurrences of the variant name; when the variant occurs exactly once
(split yields exactly two parts) this coincides with the specification's rule
(the substring following the first occurrence). -/
theorem C2_extract_between (cell name : String) (h0 : name.data ≠ [])
    (h1 : (strSplit name cell).length = 2) :
    extractRating cell name = extractRating_specRule cell name := by
  cases hf : listSplitFirst name.data cell.data with
  | none =>
    exfalso
    have hcell : strSplit name cell = [cell] := by
      unfold strSplit
      rw [listSplit_eq h0, hf]
      rfl
    rw [hcell] at h1
    simp at h1
  | some pp =>
    have hsp : listSplit name.data cell.data = pp.1 :: listSplit name.data pp.2 := by
      rw [listSplit_eq h0, hf]
    cases hf2 : listSplitFirst name.data pp.2 with
    | some pp2 =>
      exfalso
      have hsp2 : listSplit name.data pp.2 = pp2.1 :: listSplit name.data pp2.2 := by
        rw [listSplit_eq h0, hf2]
      cases hl : listSplit name.data pp2.2 with
      | nil => exact listSplitAux_ne_nil name.data (pp2.2.length + 1) pp2.2 hl
      | cons a as =>
        unfold strSplit at h1
        rw [hsp, hsp2, hl] at h1
        simp at h1
    | none =>
      have hsp2 : listSplit name.data pp.2 = [pp.2] := by
        rw [listSplit_eq h0, hf2]
      have hstr : strSplit name cell = [⟨pp.1⟩, ⟨pp.2⟩] := by
        unfold strSplit
        rw [hsp, hsp2]
        rfl
      unfold extractRating extractRating_specRule
      rw [hstr, hf]

/-- Witness for the amended C2 on a cell where the variant occurs exactly once. -/
theorem C2_extract_between_witness :
    ("뉴스A" : String).data ≠ [] ∧ (strSplit "뉴스A" "뉴스A 12.3").length = 2 ∧
      extractRating "뉴스A 12.3" "뉴스A" = extractRating_specRule "뉴스A 12.3" "뉴스A" :=
  ⟨by decide, by decide, C2_extract_between "뉴스A 12.3" "뉴스A" (by decide) (by decide)⟩

/-- C10: a cell that begins with the special-edition prefix, i.e. of the form
`특집뉴스A` followed by arbitrary text not containing `뉴스A` again, is already
matched by the plain variant `뉴스A` (substring containment), and the extracted
rating is the parsed text following the embedded name; concretely, the locator
consumes the cell `특집뉴스A 12.3` with the variant list `["뉴스A"]` alone,
returning rating 12.3. -/
theorem C10_prefix_match (post : String)
    (hpost : listSplitFirst ("뉴스A" : String).data post.data = none) :
    pySubstr "뉴스A" ("특집뉴스A" ++ post) = true
    ∧ extractRating ("특집뉴스A" ++ post) "뉴스A"
        = pyFloat (strTrim (truncParen (strTrim post)))
    ∧ find_program_data_improved gridC10 ["뉴스A"] = some (mkRat 123 10, 0, 1) := by
  have hfirst : listSplitFirst ("뉴스A" : String).data ("특집뉴스A" ++ post).data
      = some (['특', '집'], post.data) := by
    rw [show ("뉴스A" : String).data = ['뉴', '스', 'A'] from rfl,
      show ("특집뉴스A" ++ post).data = '특' :: '집' :: (['뉴', '스', 'A'] ++ post.data)
        from rfl]
    rw [listSplitFirst_cons_step (isPrefixOf_cons_ne (by decide)),
      listSplitFirst_cons_step (isPrefixOf_cons_ne (by decide)),
      listSplitFirst_prefix (by decide) post.data]
  refine ⟨?_, ?_, rfl⟩
  · unfold pySubstr
    rw [hfirst]
    rfl
  · unfold extractRating strSplit
    rw [listSplit_eq (by decide), hfirst]
    simp only []
    rw [listSplit_eq (by decide),
      show listSplitFirst ("뉴스A" : String).data post.data = none from hpost]
    rfl

/-- Witness for C10 with the remainder text `" 12.3"`. -/
theorem C10_prefix_match_witness :
    listSplitFirst ("뉴스A" : String).data (" 12.3" : String).data = none ∧
      (pySubstr "뉴스A" ("특집뉴스A" ++ " 12.3") = true
       ∧ extractRating ("특집뉴스A" ++ " 12.3")
           "뉴스A" = pyFloat (strTrim (truncParen (strTrim " 12.3")))
       ∧ find_program_data_improved gridC10 ["뉴스A"] = some (mkRat 123 10, 0, 1)) :=
  ⟨by decide, C10_prefix_match " 12.3" (by decide)⟩

theorem findSome?_or_cons {α β : Type} (f : α → Option β) (x : α) (xs : List α) :
    (x :: xs).findSome? f = (f x).or (xs.findSome? f) := by
  cases hf : f x <;> simp [List.findSome?_cons, hf]

theorem findSome?_flatMap {α β γ : Type} (l : List α) (g : α → List β) (f : β → Option γ) :
    (l.flatMap g).findSome? f = l.findSome? (fun a => (g a).findSome? f) := by
  induction l with
  | nil => rfl
  | cons x xs ih =>
    rw [List.flatMap_cons, List.findSome?_append, ih, findSome?_or_cons]

theorem findSome?_comp_map {α β γ : Type} (g : α → β) (l : List α) (f : β → Option γ) :
    (l.map g).findSome? f = l.findSome? (fun a => f (g a)) := by
  induction l with
  | nil => rfl
  | cons x xs ih => rw [List.map_cons, findSome?_or_cons, ih, findSome?_or_cons]

/-- C3: the locator is exactly the first-hit search over the flattened scan
order — variants in list order, columns 1..4, rows top-to-bottom — where a cell
participates iff it is a candidate (non-empty, contains the variant, has a
digit) and its extracted rating parses; the result packages
`(rating, row, col)`, and exhaustion yields the null sentinel `none`. -/
theorem C3_scan_order (sheet : Grid) (names : List String) :
    find_program_data_improved sheet names =
      (scanTriples sheet names).findSome? (fun t =>
        if isCandidate sheet t.1 t.2.1 t.2.2 then
          (extractRating (strTrim (cellAt sheet t.2.2 t.2.1)) t.1).map
            (fun q => (q, t.2.2, t.2.1))
        else none) := by
  unfold find_program_data_improved scanTriples
  rw [findSome?_flatMap]
  congr 1
  funext name
  rw [findSome?_flatMap]
  congr 1
  funext col
  rw [findSome?_comp_map]
  congr 1

/-- C4: for any two grids and any date the parser accepts, the aggregated
result maps exactly the four program keys, in roster order, with every key
present even when no match was found (in which case the corresponding rating
field is `none`), and each record's `name` is the first (normal) variant of the
resolved list regardless of what matched in either grid. -/
theorem C4_roster (gp g2 : Grid) (ds : String) (y mo d : Nat)
    (hp : parse_yymmdd ds = some (y, mo, d)) :
    ∃ l, get_program_ratings gp g2 ds = some l
      ∧ l.map Prod.fst = ["news_a", "jtbc", "mbn", "tv_chosun"]
      ∧ ∀ kv ∈ l, ∃ names, names ≠ []
          ∧ (kv.1, names) ∈ programs (decide (5 ≤ weekday y mo d))
          ∧ kv.2.name = names.headD ""
          ∧ (find_program_data_improved gp names = none → kv.2.paid = none)
          ∧ (find_program_data_improved g2 names = none → kv.2.rating_2049 = none) := by
  simp only [get_program_ratings, hp]
  refine ⟨_, rfl, ?_, ?_⟩
  · cases decide (5 ≤ weekday y mo d) <;> rfl
  · intro kv hkv
    cases hw : decide (5 ≤ weekday y mo d) with
    | false =>
      rw [hw] at hkv
      simp only [programs, Bool.false_eq_true, if_false, List.map_cons, List.map_nil,
        List.mem_cons, List.not_mem_nil, or_false] at hkv
      rcases hkv with rfl | rfl | rfl | rfl
      · exact ⟨["뉴스A", "특집뉴스A"], by simp, by simp [programs], rfl,
          fun hn => by simp [hn], fun hn => by simp [hn]⟩
      · exact ⟨["JTBC뉴스룸", "특집JTBC뉴스룸"], by simp, by simp [programs], rfl,
          fun hn => by simp [hn], fun hn => by simp [hn]⟩
      · exact ⟨["MBN뉴스7", "특집MBN뉴스7"], by simp, by simp [programs], rfl,
          fun hn => by simp [hn], fun hn => by simp [hn]⟩
      · exact ⟨["TV조선뉴스9", "특집TV조선뉴스9"], by simp, by simp [programs], rfl,
          fun hn => by simp [hn], fun hn => by simp [hn]⟩
    | true =>
      rw [hw] at hkv
      simp only [programs, if_true, List.map_cons, List.map_nil,
        List.mem_cons, List.not_mem_nil, or_false] at hkv
      rcases hkv with rfl | rfl | rfl | rfl
      · exact ⟨["뉴스A", "특집뉴스A"], by simp, by simp [programs], rfl,
          fun hn => by simp [hn], fun hn => by simp [hn]⟩
      · exact ⟨["JTBC뉴스룸", "특집JTBC뉴스룸"], by simp, by simp [programs], rfl,
          fun hn => by simp [hn], fun hn => by simp [hn]⟩
      · exact ⟨["MBN뉴스센터", "특집MBN뉴스센터"], by simp, by simp [programs], rfl,
          fun hn => by simp [hn], fun hn => by simp [hn]⟩
      · exact ⟨["TV조선뉴스7", "특집TV조선뉴스7"], by simp, by simp [programs], rfl,
          fun hn => by simp [hn], fun hn => by simp [hn]⟩

/-- Witness for C4 on empty grids and the date 2025-10-10. -/
theorem C4_roster_witness :
    ∃ l, get_program_ratings ([] : Grid) ([] : Grid) "251010" = some l
      ∧ l.map Prod.fst = ["news_a", "jtbc", "mbn", "tv_chosun"]
      ∧ ∀ kv ∈ l, ∃ names, names ≠ []
          ∧ (kv.1, names) ∈ programs (decide (5 ≤ weekday 2025 10 10))
          ∧ kv.2.name = names.headD ""
          ∧ (find_program_data_improved ([] : Grid) names = none → kv.2.paid = none)
          ∧ (find_program_data_improved ([] : Grid) names = none → kv.2.rating_2049 = none) :=
  C4_roster [] [] "251010" 2025 10 10 (by decide)

/-- C5: weekend status is the calendar weekday (Saturday/Sunday, i.e. index at
least 5) of the date parsed from the 6-digit `YYMMDD` string with the 2-digit
year pivot; on a weekday the `mbn` key resolves to
`["MBN뉴스7", "특집MBN뉴스7"]` and the grid cell `MBN뉴스7 8.1` matches with
rating 8.1 in both grids, while on a weekend it resolves to
`["MBN뉴스센터", "특집MBN뉴스센터"]` and the same cell yields no match. -/
theorem C5_weekend_resolution (ds : String) (y mo d : Nat)
    (hp : parse_yymmdd ds = some (y, mo, d)) :
    ∃ l, get_program_ratings gridC5 gridC5 ds = some l ∧
      (if 5 ≤ weekday y mo d then
        (programs true).lookup "mbn" = some ["MBN뉴스센터", "특집MBN뉴스센터"]
          ∧ find_program_data_improved gridC5 ["MBN뉴스센터", "특집MBN뉴스센터"] = none
          ∧ l.lookup "mbn" = some ⟨"MBN뉴스센터", none, none⟩
       else
        (programs false).lookup "mbn" = some ["MBN뉴스7", "특집MBN뉴스7"]
          ∧ find_program_data_improved gridC5 ["MBN뉴스7", "특집MBN뉴스7"]
              = some (mkRat 81 10, 0, 1)
          ∧ l.lookup "mbn" = some ⟨"MBN뉴스7", some (mkRat 81 10), some (mkRat 81 10)⟩) := by
  simp only [get_program_ratings, hp]
  by_cases hw : 5 ≤ weekday y mo d
  · rw [show decide (5 ≤ weekday y mo d) = true from decide_eq_true hw]
    exact ⟨_, rfl, by rw [if_pos hw]; exact ⟨rfl, rfl, rfl⟩⟩
  · rw [show decide (5 ≤ weekday y mo d) = false from decide_eq_false hw]
    exact ⟨_, rfl, by rw [if_neg hw]; exact ⟨rfl, rfl, rfl⟩⟩

/-- Witness for C5 on Saturday 2025-10-11. -/
theorem C5_weekend_resolution_witness :
    ∃ l, get_program_ratings gridC5 gridC5 "251011" = some l ∧
      (if 5 ≤ weekday 2025 10 11 then
        (programs true).lookup "mbn" = some ["MBN뉴스센터", "특집MBN뉴스센터"]
          ∧ find_program_data_improved gridC5 ["MBN뉴스센터", "특집MBN뉴스센터"] = none
          ∧ l.lookup "mbn" = some ⟨"MBN뉴스센터", none, none⟩
       else
        (programs false).lookup "mbn" = some ["MBN뉴스7", "특집MBN뉴스7"]
          ∧ find_program_data_improved gridC5 ["MBN뉴스7", "특집MBN뉴스7"]
              = some (mkRat 81 10, 0, 1)
          ∧ l.lookup "mbn" = some ⟨"MBN뉴스7", some (mkRat 81 10), some (mkRat 81 10)⟩) :=
  C5_weekend_resolution "251011" 2025 10 11 (by decide)

/-- The first hit of `find?` over `List.range` is the least satisfying index. -/
theorem find?_range_first (n : Nat) (p : Nat → Bool) (r : Nat)
    (h : (List.range n).find? p = some r) : p r = true ∧ ∀ k < r, p k = false := by
  induction n with
  | zero => simp [List.range_zero] at h
  | succ n ih =>
    rw [List.range_succ, List.find?_append] at h
    cases hf : (List.range n).find? p with
    | some r' =>
      rw [hf] at h
      have hr : r' = r := Option.some.inj h
      subst hr
      exact ih hf
    | none =>
      rw [hf] at h
      have h2 : List.find? p [n] = some r := h
      cases hpn : p n with
      | false =>
        simp [List.find?, hpn] at h2
      | true =>
        simp only [List.find?, hpn, Option.some.injEq] at h2
        subst h2
        refine ⟨hpn, fun k hk => ?_⟩
        cases hpk : p k with
        | false => rfl
        | true =>
          exact absurd hpk (List.find?_eq_none.mp hf k (List.mem_range.mpr hk))

/-- C7: the Structured Region Finder raises its error exactly when no cell of
column 0 (as the code reads it: coerced to string and stripped) equals the
header literal `프로그램`; when such a cell exists, the header-row lookup
returns the topmost such row and raises nothing. -/
theorem C7_header_error (df : Grid) :
    ((∃ msg, find_news_a_data df = Except.error msg) ↔
      ∀ row < df.length, strTrim (cellAt df row 0) ≠ "프로그램")
    ∧ (∀ r, find_header_row df = some r →
        strTrim (cellAt df r 0) = "프로그램"
        ∧ ∀ r' < r, strTrim (cellAt df r' 0) ≠ "프로그램") := by
  constructor
  · constructor
    · rintro ⟨msg, hmsg⟩ row hrow heq
      unfold find_news_a_data at hmsg
      cases hfr : find_header_row df with
      | some hr =>
        rw [hfr] at hmsg
        simp only [] at hmsg
        cases hns : newsA_search df hr <;> rw [hns] at hmsg <;> exact absurd hmsg (by simp)
      | none =>
        have hall := List.find?_eq_none.mp hfr row (List.mem_range.mpr hrow)
        exact hall (by rw [heq]; exact beq_self_eq_true _)
    · intro hall
      have hfr : find_header_row df = none := by
        apply List.find?_eq_none.mpr
        intro x hx hbeq
        exact hall x (List.mem_range.mp hx) (eq_of_beq hbeq)
      refine ⟨"프로그램 행을 찾을 수 없습니다.", ?_⟩
      unfold find_news_a_data
      rw [hfr]
  · intro r hr
    have hh := find?_range_first df.length _ r hr
    refine ⟨eq_of_beq hh.1, ?_⟩
    intro r' hr' heq
    have hfalse := hh.2 r' hr'
    rw [heq] at hfalse
    rw [beq_self_eq_true] at hfalse
    exact absurd hfalse (by simp)

/-- Witness for C7 on the header-less grid of C1. -/
theorem C7_header_error_witness :
    ((∃ msg, find_news_a_data gridC1 = Except.error msg) ↔
      ∀ row < gridC1.length, strTrim (cellAt gridC1 row 0) ≠ "프로그램")
    ∧ (∀ r, find_header_row gridC1 = some r →
        strTrim (cellAt gridC1 r 0) = "프로그램"
        ∧ ∀ r' < r, strTrim (cellAt gridC1 r' 0) ≠ "프로그램") :=
  C7_header_error gridC1

/-- C9: whenever the Structured Region Finder succeeds with a program column,
the time column is the next column and the rating column the one after, and any
demographic column it reports lies in the 10-column window starting at the
program column with the `수도권 2049` marker as a substring of its row-0 cell;
concretely, on the grid with `프로그램` at (0,0) and `뉴스A` at (5,0) it yields
`program_row = 5`, `program_col = 0`, `time_col = 1`, `rating_col = 2`. -/
theorem C9_structured_offsets :
    (∀ df loc, find_news_a_data df = Except.ok loc →
      ∀ pc, loc.program_col = some pc →
        loc.time_col = some (pc + 1) ∧ loc.rating_col = some (pc + 2)
        ∧ ∀ dc, loc.demographic_col = some dc →
            pc ≤ dc ∧ dc < pc + 10 ∧ pySubstr "수도권 2049" (cellAt df 0 dc) = true)
    ∧ find_news_a_data gridC9 = Except.ok ⟨some 5, some 0, some 1, some 2, none⟩ := by
  constructor
  · intro df loc hok pc hpc
    unfold find_news_a_data at hok
    cases hfr : find_header_row df with
    | none =>
      rw [hfr] at hok
      exact absurd hok (by simp)
    | some hr =>
      rw [hfr] at hok
      simp only [] at hok
      cases hns : newsA_search df hr with
      | none =>
        rw [hns] at hok
        have hloc : (⟨none, none, none, none, none⟩ : StructuredLoc) = loc :=
          Except.ok.inj hok
        rw [← hloc] at hpc
        exact absurd hpc (by simp)
      | some rowpc =>
        rw [hns] at hok
        have hloc := Except.ok.inj hok
        subst hloc
        have hpc2 : rowpc.2 = pc := Option.some.inj hpc
        subst hpc2
        refine ⟨rfl, rfl, ?_⟩
        intro dc hdc
        unfold find_2049_col at hdc
        have hmem := List.mem_range'_1.mp (List.mem_of_find?_eq_some hdc)
        have hprop := List.find?_some hdc
        exact ⟨hmem.1, by omega, hprop⟩
  · rfl

/-- C8: `time_to_seconds` yields an integer exactly when the input splits on
`:` into at least two parts with parseable hours and minutes and — when a third
part is present — a parseable seconds component; on two parts the seconds
default to 0, on three or more the third part goes through float-then-truncate;
every failure (including fewer than two parts) is the `none` sentinel, and the
function is total, i.e. never raises. -/
theorem C8_time_to_seconds_total (s : String) :
    ((time_to_seconds s).isSome = true ↔
      ∃ p0 p1 rest, strSplit ":" s = p0 :: p1 :: rest
        ∧ (pyInt p0).isSome = true ∧ (pyInt p1).isSome = true
        ∧ ∀ p2 r2, rest = p2 :: r2 → (pyFloat p2).isSome = true)
    ∧ (∀ p0 p1, strSplit ":" s = [p0, p1] →
        ∀ a b, pyInt p0 = some a → pyInt p1 = some b →
          time_to_seconds s = some (a * 3600 + b * 60))
    ∧ (∀ p0 p1 p2 rest, strSplit ":" s = p0 :: p1 :: p2 :: rest →
        ∀ a b q, pyInt p0 = some a → pyInt p1 = some b → pyFloat p2 = some q →
          time_to_seconds s = some (a * 3600 + b * 60 + ratTrunc q)) := by
  refine ⟨?_, ?_, ?_⟩
  · unfold time_to_seconds
    cases hsp : strSplit ":" s with
    | nil => simp
    | cons p0 t =>
      cases t with
      | nil => simp
      | cons p1 rest =>
        cases hp0 : pyInt p0 with
        | none => simp [hp0]
        | some a =>
          cases hp1 : pyInt p1 with
          | none => simp [hp0, hp1]
          | some b =>
            cases rest with
            | nil =>
              simp [hp0, hp1]
              exact ⟨p0, p1, [], ⟨rfl, rfl, rfl⟩, by simp [hp0], by simp [hp1],
                fun p2 r2 h => by cases h⟩
            | cons p2 r2 =>
              cases hq : pyFloat p2 with
              | none => simp [hp0, hp1, hq]
              | some q =>
                simp [hp0, hp1, hq]
                exact ⟨p0, p1, p2 :: r2, ⟨rfl, rfl, rfl⟩, by simp [hp0], by simp [hp1],
                  fun p2' r2' h => by
                    injection h with h1 h2
                    rw [← h1]
                    simp [hq]⟩
  · intro p0 p1 hsp a b ha hb
    unfold time_to_seconds
    rw [hsp]
    simp only [ha, hb]
  · intro p0 p1 p2 rest hsp a b q ha hb hq
    unfold time_to_seconds
    rw [hsp]
    simp only [ha, hb, hq]

/-- Witness for C8 at the concrete input `09:05:30`. -/
theorem C8_time_to_seconds_total_witness :
    (((time_to_seconds "09:05:30").isSome = true ↔
      ∃ p0 p1 rest, strSplit ":" "09:05:30" = p0 :: p1 :: rest
        ∧ (pyInt p0).isSome = true ∧ (pyInt p1).isSome = true
        ∧ ∀ p2 r2, rest = p2 :: r2 → (pyFloat p2).isSome = true)
    ∧ (∀ p0 p1, strSplit ":" "09:05:30" = [p0, p1] →
        ∀ a b, pyInt p0 = some a → pyInt p1 = some b →
          time_to_seconds "09:05:30" = some (a * 3600 + b * 60))
    ∧ (∀ p0 p1 p2 rest, strSplit ":" "09:05:30" = p0 :: p1 :: p2 :: rest →
        ∀ a b q, pyInt p0 = some a → pyInt p1 = some b → pyFloat p2 = some q →
          time_to_seconds "09:05:30" = some (a * 3600 + b * 60 + ratTrunc q))) :=
  C8_time_to_seconds_total "09:05:30"

/-- Witness for C3 on the single-cell MBN grid with one variant. -/
theorem C3_scan_order_witness :
    find_program_data_improved gridC5 ["MBN뉴스7"] =
      (scanTriples gridC5 ["MBN뉴스7"]).findSome? (fun t =>
        if isCandidate gridC5 t.1 t.2.1 t.2.2 then
          (extractRating (strTrim (cellAt gridC5 t.2.2 t.2.1)) t.1).map
            (fun q => (q, t.2.2, t.2.1))
        else none) :=
  C3_scan_order gridC5 ["MBN뉴스7"]

/-- Witness for C9 restating its concrete half through the theorem. -/
theorem C9_structured_offsets_witness :
    find_news_a_data gridC9 = Except.ok ⟨some 5, some 0, some 1, some 2, none⟩ :=
  C9_structured_offsets.2
